import Mathlib

/-!
Verification of the paired-file model registry (`model_manager` package).

The development shallowly embeds the canonical revision of the registry:
`src/model_manager/model_manager.py` with its helpers `util.py`, `config.py`
and `exceptions.py`, plus the superseded aggregate-file revision
`model_manager/ModelManager.py` where a claim refers to it.

Modelling conventions:
* The model directory is a pure state: the directory path plus a finite list
  of (basename, content) entries.  `os.listdir` returns the basenames (their
  order is irrelevant because the code sorts immediately afterwards).
* Python exceptions are an explicit error type; operations return `Except`.
  A mutating operation returns the directory state reached at the moment an
  exception is raised, since files written before the raise stay behind.
* The payload codec (cloudpickle/pickle) and the JSON codec are external
  collaborators per the spec; file contents store the written value itself.
* Python binds keyword arguments against the callee's parameter list when the
  call is made and raises `TypeError` for a keyword that matches no
  parameter; this binding step is embedded explicitly because
  `ModelManager.models` passes `ignore_remainder=` to `util.iterate_by_n`,
  whose parameters are `collection`, `n`, `yield_remainder`,
  `error_if_remainder`.
-/

namespace MM

/-- JSON-compatible Python values, plus `handle`, standing for a value the
JSON codec rejects (the spec's example is an open file handle). -/
inductive PyValue where
  | jnull
  | jbool (b : Bool)
  | jnum (n : Int)
  | jstr (s : String)
  | jarr (items : List PyValue)
  | jobj (entries : List (String × PyValue))
  | handle (id : Nat)

/-- Exceptions the embedded code can raise.  `typeError` is Python's
`TypeError` for an unexpected keyword argument; `jsonNotSerializable` is the
`TypeError` raised by `json.dump` on a non-serializable value; the others
mirror `exceptions.py` and the built-in file errors. -/
inductive PyError where
  | typeError
  | modelFilesCorrupted (model_dir file1 file2 : String)
  | remainderError (itemsLeft : Nat)
  | shouldHaveModel (msg : String)
  | noOverwrite (msg : String)
  | fileNotFoundError (path : String)
  | jsonNotSerializable
  | unpicklingError
  | jsonDecodeError
deriving DecidableEq

/-- Content of one file in the model directory. -/
inductive FileContent (α : Type) where
  | payloadBytes (obj : α)
  | infoJson (value : PyValue)
  | truncatedJson

/-- State of the model directory: its path and its entries, keyed by
basename. -/
structure DirState (α : Type) where
  model_dir : String
  files : List (String × FileContent α)

/-- Basenames of the files in the directory (`os.listdir`). -/
def listdir {α : Type} (st : DirState α) : List String :=
  st.files.map (fun f => f.1)

/-- Content of the named file, when it exists. -/
def readFile {α : Type} (st : DirState α) (name : String) :
    Option (FileContent α) :=
  (st.files.find? (fun f => f.1 == name)).map (fun f => f.2)

/-- Writing a file: replace the content in place when the basename exists,
create the entry otherwise.  This realizes both branches of
`util.open_file`, which opens with mode `w` (truncate) when the path exists
and `x` (create) when it does not, followed by a full dump. -/
def writeFile {α : Type} (st : DirState α) (name : String)
    (content : FileContent α) : DirState α :=
  if st.files.any (fun f => f.1 == name) then
    ⟨st.model_dir, st.files.map (fun f => if f.1 == name then (name, content) else f)⟩
  else
    ⟨st.model_dir, st.files ++ [(name, content)]⟩

/-- Mode chosen by `util.open_file` (`'w'` when the file exists, `'x'`
otherwise); recorded for fidelity, both modes end in the file holding
exactly the dumped content. -/
def open_file_mode {α : Type} (st : DirState α) (filepath : String) : String :=
  if st.files.any (fun f => f.1 == filepath) then "w" else "x"

/-- Key `config.MODEL_INFO_KEY_INITIALIZER`. -/
def MODEL_INFO_KEY_INITIALIZER : String := "initializer"

/-- Sentinel `config.MODEL_INFO_INTIALIZER_STRING_PREFIX` (sic). -/
def MODEL_INFO_INTIALIZER_STRING_PREFIX : String :=
  "DO NOT TOUCH THIS STRING AT ALL --> "

/-- Modelled from the spec: `config.DEFAULT_EXT_MODEL` is referenced by
`model_manager.py` but missing from the revision of `config.py` in the
repository; the spec (section 6) makes the payload extension a configuration
constant with a documented default. -/
def DEFAULT_EXT_MODEL : String := ".model"

/-- Modelled from the spec: `config.DEFAULT_EXT_INFO`, the metadata (JSON)
extension, likewise missing from `config.py`; the class docstring calls the
sidecar "a json file". -/
def DEFAULT_EXT_INFO : String := ".json"

mutual
/-- True when every value in the structure is representable by the JSON
codec (`json.dumps` succeeds); `handle` values are rejected. -/
def isJsonSerializable : PyValue → Bool
  | .jnull => true
  | .jbool _ => true
  | .jnum _ => true
  | .jstr _ => true
  | .jarr items => allSerializable items
  | .jobj entries => allSerializableEntries entries
  | .handle _ => false
def allSerializable : List PyValue → Bool
  | [] => true
  | v :: vs => isJsonSerializable v && allSerializable vs
def allSerializableEntries : List (String × PyValue) → Bool
  | [] => true
  | kv :: kvs => isJsonSerializable kv.2 && allSerializableEntries kvs
end

/-- True when the mapping has no `config.MODEL_INFO_KEY_INITIALIZER`
("factory") key at top level. -/
def hasNoInitializerKey : PyValue → Bool
  | .jobj entries => entries.all (fun kv => kv.1 ≠ MODEL_INFO_KEY_INITIALIZER)
  | _ => true

/-- Lexicographic code-point comparison of character lists, the order Python
uses to compare `str` values (and hence the order of `list.sort`). -/
def charListLe : List Char → List Char → Bool
  | [], _ => true
  | _ :: _, [] => false
  | a :: u, b :: v => if a = b then charListLe u v else decide (a < b)

/-- Python string comparison `s <= t`. -/
def strLe (s t : String) : Bool := charListLe s.data t.data

/-- Python `list.sort()` on a list of strings. -/
def pySortStrings (l : List String) : List String :=
  l.mergeSort (fun a b => strLe a b)

/-- Function `get_model_name`: `os.path.basename(filepath).split('.')[0]`,
the basename text before the first extension separator.  Directory entries
are kept as basenames, so the `basename` step is the identity here, and the
first element of `split('.')` is exactly the longest separator-free initial
segment. -/
def get_model_name (filepath : String) : String :=
  ⟨filepath.data.takeWhile (fun c => c ≠ '.')⟩

/-- Method `ModelManager._make_model_filepath`:
`os.path.join(self.model_dir, model_name + config.DEFAULT_EXT_MODEL)`.  The
state keys files by basename, so the joined directory component (which
`os.listdir`/`basename` strip again) is not repeated here. -/
def make_model_filepath (model_name : String) : String :=
  model_name ++ DEFAULT_EXT_MODEL

/-- Method `ModelManager._make_model_info_filepath`:
`os.path.join(self.model_dir, model_name + config.DEFAULT_EXT_INFO)`. -/
def make_model_info_filepath (model_name : String) : String :=
  model_name ++ DEFAULT_EXT_INFO

/-- Parameters of `util.iterate_by_n(collection, n, yield_remainder=False,
error_if_remainder=False)`. -/
def iterate_by_n_params : List String :=
  ["collection", "n", "yield_remainder", "error_if_remainder"]

/-- Keywords used at the call site in `ModelManager.models`:
`util.iterate_by_n(all_model_files, n=2, ignore_remainder=False)`. -/
def models_call_kwargs : List String := ["n", "ignore_remainder"]

/-- Python keyword binding: a call is accepted only when every keyword names
a parameter of the callee; otherwise the call raises `TypeError`. -/
def acceptsKwargs (params kwargs : List String) : Bool :=
  kwargs.all (fun k => params.contains k)

/-- Body of the `for model_files in util.iterate_by_n(files, 2, ...)` loop
of `ModelManager.models`, fused with the generator: consecutive pairs of the
sorted entry list are checked in order; a name mismatch raises
`ModelFilesCorrupted` carrying the directory and the offending pair, and a
trailing unpaired entry makes the generator raise its plain remainder
`Exception` (the behavior `ignore_remainder=False` asks for per the
docstring of `iterate_by_n`, namely `error_if_remainder`). -/
def modelsCore (model_dir : String) : List String → Except PyError (List String)
  | [] => .ok []
  | [_] => .error (.remainderError 1)
  | f1 :: f2 :: rest =>
    if get_model_name f1 ≠ get_model_name f2 then
      .error (.modelFilesCorrupted model_dir f1 f2)
    else
      match modelsCore model_dir rest with
      | .ok ms => .ok (get_model_name f1 :: ms)
      | .error e => .error e

/-- Property `ModelManager.models`: list the directory, sort, then call
`util.iterate_by_n(all_model_files, n=2, ignore_remainder=False)`.  The
keyword `ignore_remainder` matches no parameter of `iterate_by_n`, so the
call raises `TypeError` before the first pair is examined. -/
def models {α : Type} (st : DirState α) : Except PyError (List String) :=
  let all_model_files := pySortStrings (listdir st)
  if acceptsKwargs iterate_by_n_params models_call_kwargs then
    modelsCore st.model_dir all_model_files
  else
    .error .typeError

/-- Listing as it would run were the keyword accepted with the meaning the
docstring of `iterate_by_n` gives it; used to analyse the pairing algorithm
itself, which the faithful `models` never reaches. -/
def models_fixed {α : Type} (st : DirState α) : Except PyError (List String) :=
  modelsCore st.model_dir (pySortStrings (listdir st))

/-- Method `ModelManager.has_model`: `model_name in self.models`. -/
def has_model {α : Type} (st : DirState α) (model_name : String) :
    Except PyError Bool :=
  match models st with
  | .ok ms => .ok (ms.contains model_name)
  | .error e => .error e

/-- Method `ModelManager.should_have_model`: raise `ShouldHaveModel` with
`exception or model_name` when `has_model` is false.  (An empty-string
`exception` is falsy in Python and would also fall back to the name; the
embedding passes `none` for the default `None`.) -/
def should_have_model {α : Type} (st : DirState α) (model_name : String)
    (exceptionMsg : Option String) : Except PyError Unit :=
  match has_model st model_name with
  | .error e => .error e
  | .ok true => .ok ()
  | .ok false => .error (.shouldHaveModel (exceptionMsg.getD model_name))

/-- Method `ModelManager.save_model`.  The overwrite guard short-circuits:
`has_model` runs only when `overwrite_model` is false.  The payload is then
dumped (via `util.open_file`, truncating or creating), and last the info
mapping (defaulting to `{}`) is dumped as JSON; a non-serializable value
makes `json.dump` raise its `TypeError` after the info file was already
opened for writing, leaving it truncated and the payload file behind.
`dependency_modules` only registers modules with cloudpickle and has no
observable effect on the stored state, so it is not modelled. -/
def save_model {α : Type} (st : DirState α) (model_name : String) (model : α)
    (model_info : Option PyValue) (overwrite_model : Bool) :
    Except (PyError × DirState α) (DirState α) :=
  let check : Except PyError Bool :=
    if !overwrite_model then has_model st model_name else .ok false
  match check with
  | .error e => .error (e, st)
  | .ok true => .error (.noOverwrite model_name, st)
  | .ok false =>
    let model_file := make_model_filepath model_name
    let st1 := writeFile st model_file (.payloadBytes model)
    let info := model_info.getD (.jobj [])
    let model_info_file := make_model_info_filepath model_name
    if isJsonSerializable info then
      .ok (writeFile st1 model_info_file (.infoJson info))
    else
      .error (.jsonNotSerializable, writeFile st1 model_info_file .truncatedJson)

/-- Method `ModelManager.load_model`: open the payload file and unpickle it.
No existence check is made; a missing file raises `FileNotFoundError`, and a
file that does not hold a pickled payload fails to unpickle. -/
def load_model {α : Type} (st : DirState α) (model_name : String) :
    Except PyError α :=
  let model_file := make_model_filepath model_name
  match readFile st model_file with
  | none => .error (.fileNotFoundError model_file)
  | some (.payloadBytes obj) => .ok obj
  | some (.infoJson _) => .error .unpicklingError
  | some .truncatedJson => .error .unpicklingError

/-- Method `ModelManager.get_model_info`: first `should_have_model`, then
open the info file and `json.load` it. -/
def get_model_info {α : Type} (st : DirState α) (model_name : String) :
    Except PyError PyValue :=
  match should_have_model st model_name none with
  | .error e => .error e
  | .ok () =>
    let model_info_file := make_model_info_filepath model_name
    match readFile st model_info_file with
    | none => .error (.fileNotFoundError model_info_file)
    | some (.infoJson v) => .ok v
    | some (.payloadBytes _) => .error .jsonDecodeError
    | some .truncatedJson => .error .jsonDecodeError

/-- Modelled from the spec: the Callable Reconstruction Codec's `encode`
operation (spec section 4.5) is not among the source files; only its
sentinel constant (`config.MODEL_INFO_INTIALIZER_STRING_PREFIX`) is.  Per
the spec, `encode` serializes a zero-argument factory into a token and
prepends the fixed sentinel; the serialization of the factory's logic is the
external part, so it enters here as the already-encoded `factoryLogic`
string. -/
def encode (factoryLogic : String) : String :=
  MODEL_INFO_INTIALIZER_STRING_PREFIX ++ factoryLogic

end MM

namespace MM

/-! Order-theoretic facts connecting the executable Python string comparison
to the lexicographic linear order, used to settle the sortedness claim about
the listing. -/

theorem cons_le_cons_of_le {a : Char} {u v : List Char} (h : a :: u ≤ a :: v) : u ≤ v := by
  by_contra hn
  have hvu : v < u := not_le.mp hn
  have h2 : a :: v < a :: u := List.Lex.cons hvu
  exact absurd h (not_le.mpr h2)

theorem charListLe_iff : ∀ u v : List Char, charListLe u v = true ↔ u ≤ v
  | [], v => by
    simp only [charListLe]
    exact iff_of_true trivial List.nil_le
  | a :: u, [] => by
    simp only [charListLe]
    constructor
    · intro h; exact absurd h (by simp)
    · intro h; exact absurd (List.nil_lt_cons a u) (not_lt.mpr h)
  | a :: u, b :: v => by
    by_cases hab : a = b
    · subst hab
      simp only [charListLe, if_pos rfl]
      constructor
      · intro h; exact List.cons_le_cons a ((charListLe_iff u v).mp h)
      · intro h; exact (charListLe_iff u v).mpr (cons_le_cons_of_le h)
    · simp only [charListLe, if_neg hab, decide_eq_true_iff]
      constructor
      · intro h; exact le_of_lt (List.Lex.rel h)
      · intro h
        rcases eq_or_lt_of_le h with heq | hlt
        · exact absurd (List.cons.inj heq).1 hab
        · exact lt_of_le_of_ne (List.head_le_of_lt hlt) hab

theorem strLe_iff (s t : String) : strLe s t = true ↔ s ≤ t :=
  (charListLe_iff s.data t.data).trans String.le_iff_toList_le.symm

theorem strLe_trans (a b c : String) (h1 : strLe a b = true) (h2 : strLe b c = true) :
    strLe a c = true :=
  (strLe_iff a c).mpr (le_trans ((strLe_iff a b).mp h1) ((strLe_iff b c).mp h2))

theorem strLe_total (a b : String) : (strLe a b || strLe b a) = true := by
  rcases le_total a b with h | h
  · simp [(strLe_iff a b).mpr h]
  · simp [(strLe_iff b a).mpr h]

theorem sorted_pySortStrings (l : List String) :
    List.Sorted (fun a b => a ≤ b) (pySortStrings l) :=
  (List.sorted_mergeSort strLe_trans strLe_total l).imp
    (fun hab => (strLe_iff _ _).mp hab)

theorem takeWhileName_le {u : List Char} : ∀ {v : List Char}, u ≤ v →
    (∀ c ∈ u.takeWhile (fun c => c ≠ '.'), ('.' : Char) < c) →
    (∀ c ∈ v.takeWhile (fun c => c ≠ '.'), ('.' : Char) < c) →
    u.takeWhile (fun c => c ≠ '.') ≤ v.takeWhile (fun c => c ≠ '.') := by
  induction u with
  | nil => intro v _ _ _; simp [List.nil_le]
  | cons a u ih =>
    intro v h hu hv
    cases v with
    | nil => exact absurd (List.nil_lt_cons a u) (not_lt.mpr h)
    | cons b v =>
      by_cases ha : a = '.'
      · simp [List.takeWhile_cons, ha, List.nil_le]
      · have hDa : ('.' : Char) < a := hu a (by simp [List.takeWhile_cons, ha])
        have hab : a ≤ b := by
          rcases eq_or_lt_of_le h with heq | hlt
          · cases heq; exact le_rfl
          · exact List.head_le_of_lt hlt
        by_cases hb : b = '.'
        · exact absurd hDa (not_lt.mpr (hb ▸ hab))
        · rcases eq_or_lt_of_le h with heq | hlt
          · cases heq; exact le_rfl
          · replace hlt : List.Lex (· < ·) (a :: u) (b :: v) := hlt
            cases hlt with
            | rel hr =>
              have hlex : (a :: u.takeWhile (fun c => c ≠ '.')) <
                  (b :: v.takeWhile (fun c => c ≠ '.')) := List.Lex.rel hr
              simpa [List.takeWhile_cons, ha, hb] using le_of_lt hlex
            | cons hlex =>
              have huv : u ≤ v := le_of_lt hlex
              have hu2 : ∀ c ∈ u.takeWhile (fun c => c ≠ '.'), ('.' : Char) < c :=
                fun c hc => hu c (by
                  rw [List.takeWhile_cons, if_pos (by simpa using ha)]
                  exact List.mem_cons_of_mem a hc)
              have hv2 : ∀ c ∈ v.takeWhile (fun c => c ≠ '.'), ('.' : Char) < c :=
                fun c hc => hv c (by
                  rw [List.takeWhile_cons, if_pos (by simpa using ha)]
                  exact List.mem_cons_of_mem a hc)
              have hle := List.cons_le_cons a (ih huv hu2 hv2)
              simpa [List.takeWhile_cons, ha, hb] using hle

theorem get_model_name_le {s t : String} (h : s ≤ t)
    (hs : ∀ c ∈ (get_model_name s).data, ('.' : Char) < c)
    (ht : ∀ c ∈ (get_model_name t).data, ('.' : Char) < c) :
    get_model_name s ≤ get_model_name t := by
  have h2 := takeWhileName_le (String.le_iff_toList_le.mp h) hs ht
  exact String.le_iff_toList_le.mpr h2

theorem modelsCore_mem (model_dir : String) :
    ∀ (es l : List String), modelsCore model_dir es = .ok l →
      ∀ m ∈ l, ∃ e ∈ es, m = get_model_name e
  | [], l, h, m, hm => by
    simp only [modelsCore, Except.ok.injEq] at h
    subst h; exact absurd hm (List.not_mem_nil m)
  | [_], l, h, m, hm => by
    simp [modelsCore] at h
  | f1 :: f2 :: rest, l, h, m, hm => by
    simp only [modelsCore] at h
    by_cases hne : get_model_name f1 ≠ get_model_name f2
    · rw [if_pos hne] at h; exact absurd h (by simp)
    · rw [if_neg hne] at h
      cases hrec : modelsCore model_dir rest with
      | error e => rw [hrec] at h; exact absurd h (by simp)
      | ok ms =>
        rw [hrec] at h
        have hl : l = get_model_name f1 :: ms := by
          simpa using h.symm
        subst hl
        rcases List.mem_cons.mp hm with hm1 | hm2
        · exact ⟨f1, by simp, hm1⟩
        · rcases modelsCore_mem model_dir rest ms hrec m hm2 with ⟨e, he, hme⟩
          exact ⟨e, by simp [he], hme⟩

theorem modelsCore_sorted (model_dir : String) :
    ∀ (es l : List String), modelsCore model_dir es = .ok l →
      List.Sorted (fun a b => a ≤ b) es →
      (∀ nm ∈ l, ∀ c ∈ nm.data, ('.' : Char) < c) →
      List.Sorted (fun a b => a ≤ b) l
  | [], l, h, _, _ => by
    simp only [modelsCore, Except.ok.injEq] at h
    subst h; exact List.sorted_nil
  | [_], l, h, _, _ => by
    simp [modelsCore] at h
  | f1 :: f2 :: rest, l, h, hsort, hchar => by
    simp only [modelsCore] at h
    by_cases hne : get_model_name f1 ≠ get_model_name f2
    · rw [if_pos hne] at h; exact absurd h (by simp)
    · rw [if_neg hne] at h
      cases hrec : modelsCore model_dir rest with
      | error e => rw [hrec] at h; exact absurd h (by simp)
      | ok ms =>
        rw [hrec] at h
        have hl : l = get_model_name f1 :: ms := by simpa using h.symm
        subst hl
        have hsrest : List.Sorted (fun a b => a ≤ b) rest :=
          ((List.sorted_cons.mp ((List.sorted_cons.mp hsort).2)).2)
        have hms : List.Sorted (fun a b => a ≤ b) ms :=
          modelsCore_sorted model_dir rest ms hrec hsrest
            (fun nm hnm => hchar nm (List.mem_cons_of_mem _ hnm))
        refine List.sorted_cons.mpr ⟨?_, hms⟩
        intro m hm
        rcases modelsCore_mem model_dir rest ms hrec m hm with ⟨e, he, hme⟩
        have hf1e : f1 ≤ e :=
          (List.sorted_cons.mp hsort).1 e (List.mem_cons_of_mem _ he)
        have hc1 : ∀ c ∈ (get_model_name f1).data, ('.' : Char) < c :=
          hchar (get_model_name f1) (by simp)
        have hc2 : ∀ c ∈ (get_model_name e).data, ('.' : Char) < c := by
          rw [← hme]
          exact hchar m (List.mem_cons_of_mem _ hm)
        rw [hme]
        exact get_model_name_le hf1e hc1 hc2

theorem models_fixed_sorted {α : Type} (st : DirState α) (l : List String)
    (h : models_fixed st = .ok l)
    (hchar : ∀ nm ∈ l, ∀ c ∈ nm.data, ('.' : Char) < c) :
    List.Sorted (fun a b => a ≤ b) l :=
  modelsCore_sorted st.model_dir (pySortStrings (listdir st)) l h
    (sorted_pySortStrings (listdir st)) hchar

end MM

namespace MM

/-- C1: the claim says a fresh `save_model(n, p, m, overwrite_model=False)`
followed by `load_model(n)` and `get_model_info(n)` round-trips `p` and `m`
(for a valid name and factory-free metadata).  On the code, the very first
save with `overwrite_model=False` raises `TypeError` (its `has_model` check
reaches the bad `ignore_remainder=` keyword), so the round trip never
starts; and even after a save that succeeds via `overwrite_model=True`,
`load_model` does return the payload but `get_model_info` raises the same
`TypeError` instead of returning the metadata. -/
theorem c1_roundtrip_blocked_by_kwarg_typeerror :
    save_model (⟨"models", []⟩ : DirState Nat) "m" 7
        (some (.jobj [("k", .jnum 1)])) false = .error (.typeError, ⟨"models", []⟩) ∧
    hasNoInitializerKey (.jobj [("k", .jnum 1)]) = true ∧
    save_model (⟨"models", []⟩ : DirState Nat) "m" 7
        (some (.jobj [("k", .jnum 1)])) true =
      .ok ⟨"models", [("m.model", .payloadBytes 7),
        ("m.json", .infoJson (.jobj [("k", .jnum 1)]))]⟩ ∧
    load_model (⟨"models", [("m.model", .payloadBytes 7),
        ("m.json", .infoJson (.jobj [("k", .jnum 1)]))]⟩ : DirState Nat) "m" = .ok 7 ∧
    get_model_info (⟨"models", [("m.model", .payloadBytes 7),
        ("m.json", .infoJson (.jobj [("k", .jnum 1)]))]⟩ : DirState Nat) "m" =
      .error .typeError :=
  ⟨rfl, rfl, rfl, rfl, rfl⟩

/-- C2: the claim says a second `save_model(n, ..., overwrite_model=False)`
raises `NoOverwrite` and `overwrite_model=True` replaces both files.  On the
code, a save with `overwrite_model=False` raises `TypeError` (never
`NoOverwrite`) even when the model's files exist, because the overwrite
guard's `has_model` call reaches the bad keyword; the `overwrite_model=True`
path does succeed and replaces both the payload file and the metadata
file. -/
theorem c2_second_save_raises_typeerror_not_nooverwrite :
    save_model (⟨"models", []⟩ : DirState Nat) "m" 7 (some (.jobj [])) true =
      .ok ⟨"models", [("m.model", .payloadBytes 7), ("m.json", .infoJson (.jobj []))]⟩ ∧
    save_model (⟨"models", [("m.model", .payloadBytes 7),
        ("m.json", .infoJson (.jobj []))]⟩ : DirState Nat) "m" 8
        (some (.jobj [("v", .jnum 2)])) false =
      .error (.typeError, ⟨"models", [("m.model", .payloadBytes 7),
        ("m.json", .infoJson (.jobj []))]⟩) ∧
    save_model (⟨"models", [("m.model", .payloadBytes 7),
        ("m.json", .infoJson (.jobj []))]⟩ : DirState Nat) "m" 8
        (some (.jobj [("v", .jnum 2)])) true =
      .ok ⟨"models", [("m.model", .payloadBytes 8),
        ("m.json", .infoJson (.jobj [("v", .jnum 2)]))]⟩ :=
  ⟨rfl, rfl, rfl⟩

/-- C3: the claim says an odd directory entry count (for instance after
removing only the metadata file of an existing artifact) makes the next
`models`/`has_model` evaluation raise `ModelFilesCorrupted`.  On the code,
both raise `TypeError` from the bad `ignore_remainder=` keyword before any
entry is examined; moreover the loop body the call was meant to run
(embedded as `modelsCore`) would raise `iterate_by_n`'s generic remainder
`Exception`, not `ModelFilesCorrupted`, on a trailing unpaired entry. -/
theorem c3_odd_listing_raises_typeerror_not_corruption :
    models (⟨"models", [("a.model", .payloadBytes 7)]⟩ : DirState Nat) =
      .error .typeError ∧
    has_model (⟨"models", [("a.model", .payloadBytes 7)]⟩ : DirState Nat) "a" =
      .error .typeError ∧
    modelsCore "models" ["a.model"] = .error (.remainderError 1) :=
  ⟨rfl, rfl, rfl⟩

/-- C4: the claim describes the listing contract: sort entries, pair them,
raise `ModelFilesCorrupted` (carrying the offending pair and the directory)
on a mismatched pair, and return one name per pair otherwise.  On the code,
`models` raises `TypeError` on every directory state, mismatched or
well-paired alike; the described behavior lives only in the unreachable loop
body, embedded as `modelsCore`, which does satisfy the contract on both
sample states. -/
theorem c4_listing_contract_lives_in_dead_code :
    models (⟨"models", [("a.json", .infoJson .jnull),
        ("b.model", .payloadBytes 7)]⟩ : DirState Nat) = .error .typeError ∧
    modelsCore "models" ["a.json", "b.model"] =
      .error (.modelFilesCorrupted "models" "a.json" "b.model") ∧
    models (⟨"models", [("a.json", .infoJson .jnull), ("a.model", .payloadBytes 1),
        ("b.json", .infoJson .jnull), ("b.model", .payloadBytes 2)]⟩ : DirState Nat) =
      .error .typeError ∧
    modelsCore "models" ["a.json", "a.model", "b.json", "b.model"] = .ok ["a", "b"] :=
  ⟨rfl, rfl, rfl, rfl⟩

/-- C5 counterexample: the claim says saving non-serializable metadata fails
with the not-serializable error before touching storage.  At this concrete
input the claim is false twice over: with the default
`overwrite_model=False` the call fails with the keyword `TypeError`, not a
serialization error; and with `overwrite_model=True` the serialization
`TypeError` from `json.dump` arrives only after the payload file
`m.model` (which did not exist before the call) was written and the
metadata file was opened, so storage is touched. -/
theorem c5_counterexample :
    isJsonSerializable (.jobj [("k", .handle 0)]) = false ∧
    save_model (⟨"models", []⟩ : DirState Nat) "m" 0
        (some (.jobj [("k", .handle 0)])) false =
      .error (.typeError, ⟨"models", []⟩) ∧
    save_model (⟨"models", []⟩ : DirState Nat) "m" 0
        (some (.jobj [("k", .handle 0)])) true =
      .error (.jsonNotSerializable,
        ⟨"models", [("m.model", .payloadBytes 0), ("m.json", .truncatedJson)]⟩) ∧
    readFile (⟨"models", [("m.model", .payloadBytes 0),
        ("m.json", .truncatedJson)]⟩ : DirState Nat) "m.model" =
      some (.payloadBytes 0) :=
  ⟨rfl, rfl, rfl, rfl⟩

/-- C5 as amended: `save_model` performs no serializability pre-check.  For
every payload and every metadata value the JSON codec rejects, the call with
`overwrite_model=False` fails with the keyword `TypeError` before touching
storage, while with `overwrite_model=True` it writes the payload file first
and only then fails with `json.dump`'s serialization `TypeError`, leaving
the payload file and a truncated metadata file behind (a partial write). -/
theorem c5_no_serializability_precheck (p : Nat) (mi : PyValue)
    (h : isJsonSerializable mi = false) :
    save_model (⟨"models", []⟩ : DirState Nat) "m" p (some mi) false =
      .error (.typeError, ⟨"models", []⟩) ∧
    save_model (⟨"models", []⟩ : DirState Nat) "m" p (some mi) true =
      .error (.jsonNotSerializable,
        ⟨"models", [("m.model", .payloadBytes p), ("m.json", .truncatedJson)]⟩) := by
  refine ⟨rfl, ?_⟩
  show (if isJsonSerializable mi = true then _ else _) = _
  rw [h]
  simp only [Bool.false_eq_true, if_false]
  rfl

/-- C5 witness: the amended statement at payload `3` and a metadata mapping
holding an open file handle. -/
theorem c5_witness :
    isJsonSerializable (.jobj [("k", .handle 0)]) = false ∧
    save_model (⟨"models", []⟩ : DirState Nat) "m" 3
        (some (.jobj [("k", .handle 0)])) true =
      .error (.jsonNotSerializable,
        ⟨"models", [("m.model", .payloadBytes 3), ("m.json", .truncatedJson)]⟩) :=
  ⟨rfl, (c5_no_serializability_precheck 3 (.jobj [("k", .handle 0)]) rfl).2⟩

/-- C6 counterexample: the claim says that when the paired-file invariant
fails for a name, both `load_model` and `get_model_info` fail with
`ShouldHaveModel`.  On the empty directory (where the invariant fails for
`m`), `load_model` raises `FileNotFoundError` — it performs no existence
check at all — and `get_model_info` raises `TypeError` from the broken
`has_model` path; neither raises `ShouldHaveModel`. -/
theorem c6_counterexample :
    load_model (⟨"models", []⟩ : DirState Nat) "m" =
      .error (.fileNotFoundError "m.model") ∧
    load_model (⟨"models", []⟩ : DirState Nat) "m" ≠
      .error (.shouldHaveModel "m") ∧
    get_model_info (⟨"models", []⟩ : DirState Nat) "m" = .error .typeError ∧
    get_model_info (⟨"models", []⟩ : DirState Nat) "m" ≠
      .error (.shouldHaveModel "m") := by
  refine ⟨rfl, ?_, rfl, ?_⟩
  · exact fun hc => PyError.noConfusion (Except.error.inj hc)
  · exact fun hc => PyError.noConfusion (Except.error.inj hc)

/-- C6 as amended: for every state and name whose payload file is absent,
`load_model` fails with `FileNotFoundError` for the payload path (it never
consults `has_model`), and `get_model_info` fails with the keyword
`TypeError` (its `should_have_model` guard reaches the broken listing
before the info file is touched). -/
theorem c6_load_paths_on_missing_model (st : DirState Nat) (n : String)
    (h : readFile st (make_model_filepath n) = none) :
    load_model st n = .error (.fileNotFoundError (make_model_filepath n)) ∧
    get_model_info st n = .error .typeError := by
  refine ⟨?_, rfl⟩
  simp only [load_model]
  rw [h]

/-- C6 witness: the amended statement on the empty directory and name `m`. -/
theorem c6_witness :
    readFile (⟨"models", []⟩ : DirState Nat) (make_model_filepath "m") = none ∧
    (load_model (⟨"models", []⟩ : DirState Nat) "m" =
        .error (.fileNotFoundError (make_model_filepath "m")) ∧
      get_model_info (⟨"models", []⟩ : DirState Nat) "m" = .error .typeError) :=
  ⟨rfl, c6_load_paths_on_missing_model ⟨"models", []⟩ "m" rfl⟩

/-- C7: for every directory state, evaluating the `models` property raises
`TypeError` — the call passes `ignore_remainder=`, which is not a parameter
of `iterate_by_n` — before any pairing check runs; consequently `models`
never raises `ModelFilesCorrupted`, and every operation that consults the
listing (`has_model`, and `save_model` with `overwrite_model=False`) fails
with the same `TypeError`. -/
theorem c7_models_always_raises_typeerror {α : Type} (st : DirState α)
    (n : String) (p : α) (mi : Option PyValue) :
    models st = .error .typeError ∧
    (∀ d f1 f2, models st ≠ .error (.modelFilesCorrupted d f1 f2)) ∧
    has_model st n = .error .typeError ∧
    save_model st n p mi false = .error (.typeError, st) :=
  ⟨rfl, fun _ _ _ h => PyError.noConfusion (Except.error.inj h), rfl, rfl⟩

/-- C8 counterexample: the claim says `save_model` rejects every name
containing the extension separator and writes no files for it.  With
`overwrite_model=True` the dotted name `a.b` is accepted without any error
and both files are written, so the constraint is not validated on save. -/
theorem c8_counterexample :
    save_model (⟨"models", []⟩ : DirState Nat) "a.b" 0 (some (.jobj [])) true =
      .ok ⟨"models", [("a.b.model", .payloadBytes 0),
        ("a.b.json", .infoJson (.jobj []))]⟩ :=
  rfl

/-- C8 as amended: `save_model` performs no name validation.  For every
payload, saving under the dotted name `a.b` with `overwrite_model=True`
succeeds and writes both files, and name extraction later truncates the
stored filename at its first separator, reporting `a` instead of `a.b`. -/
theorem c8_dotted_name_accepted (p : Nat) :
    save_model (⟨"models", []⟩ : DirState Nat) "a.b" p (some (.jobj [])) true =
      .ok ⟨"models", [("a.b.model", .payloadBytes p),
        ("a.b.json", .infoJson (.jobj []))]⟩ ∧
    get_model_name ("a.b" ++ DEFAULT_EXT_MODEL) = "a" :=
  ⟨rfl, rfl⟩

/-- C9 counterexample: the claim says any successful listing is sorted
ascending by name.  The property itself never succeeds (it raises
`TypeError`, first conjunct), and the listing algorithm it was meant to run,
with the keyword repaired (`models_fixed`), succeeds on the artifacts
`a-b` and `a` but returns `["a-b", "a"]`, which is not non-decreasing:
the `-` in the name orders below the `.` of the extensions, so sorting the
full filenames does not sort the extracted names. -/
theorem c9_counterexample :
    models (⟨"models", [("a-b.json", .infoJson .jnull), ("a-b.model", .payloadBytes 1),
        ("a.json", .infoJson .jnull), ("a.model", .payloadBytes 2)]⟩ : DirState Nat) =
      .error .typeError ∧
    models_fixed (⟨"models", [("a-b.json", .infoJson .jnull),
        ("a-b.model", .payloadBytes 1), ("a.json", .infoJson .jnull),
        ("a.model", .payloadBytes 2)]⟩ : DirState Nat) = .ok ["a-b", "a"] ∧
    ¬ List.Sorted (fun a b => a ≤ b) (["a-b", "a"] : List String) := by
  refine ⟨rfl, ?_, ?_⟩
  · show modelsCore _ (List.mergeSort _ _) = _
    rw [@List.mergeSort_of_sorted String (fun a b => strLe a b) _ (by decide)]
    rfl
  · intro h
    have h2 : ("a-b" : String) ≤ "a" := (List.sorted_cons.mp h).1 "a" (by simp)
    exact absurd (String.lt_iff_toList_lt.mpr (List.Lex.cons List.Lex.nil))
      (not_lt.mpr h2)

/-- C9 as amended: whenever the repaired listing (`models_fixed`, the
algorithm the `models` property was meant to run) succeeds, the returned
name sequence is sorted ascending provided every character of every
returned name orders above the extension separator; without that proviso
the names follow the order of the sorted full filenames, which the
counterexample shows need not be the order of the names. -/
theorem c9_sorted_when_names_clear_separator (st : DirState Nat) (l : List String)
    (h : models_fixed st = .ok l)
    (hchar : ∀ nm ∈ l, ∀ c ∈ nm.data, ('.' : Char) < c) :
    List.Sorted (fun a b => a ≤ b) l :=
  models_fixed_sorted st l h hchar

/-- C9 witness: the amended statement on a two-artifact directory with
alphabetic names. -/
theorem c9_witness :
    models_fixed (⟨"models", [("a.json", .infoJson .jnull), ("a.model", .payloadBytes 1),
        ("b.json", .infoJson .jnull), ("b.model", .payloadBytes 2)]⟩ : DirState Nat) =
      .ok ["a", "b"] ∧
    List.Sorted (fun a b => a ≤ b) (["a", "b"] : List String) := by
  have hok : models_fixed (⟨"models", [("a.json", .infoJson .jnull),
      ("a.model", .payloadBytes 1), ("b.json", .infoJson .jnull),
      ("b.model", .payloadBytes 2)]⟩ : DirState Nat) = .ok ["a", "b"] := by
    show modelsCore _ (List.mergeSort _ _) = _
    rw [@List.mergeSort_of_sorted String (fun a b => strLe a b) _ (by decide)]
    rfl
  exact ⟨hok, c9_sorted_when_names_clear_separator _ ["a", "b"] hok (by decide)⟩

/-- C10: for every encoded factory logic, the token produced by the
callable-reconstruction `encode` begins with the fixed sentinel: its first
characters, as many as the configured initializer-string sentinel has, are
exactly the sentinel's characters. -/
theorem c10_encode_token_carries_sentinel (factoryLogic : String) :
    (encode factoryLogic).data.take
        ( MODEL_INFO_INTIALIZER_STRING_PREFIX.data.length) =
      MODEL_INFO_INTIALIZER_STRING_PREFIX.data := by
  show ( MODEL_INFO_INTIALIZER_STRING_PREFIX ++ factoryLogic).data.take _ = _
  rw [String.data_append]
  exact List.take_left _ _

end MM
